import Mathlib

/-!
Shallow embedding of the ripcord-frontend navigation slice: the ClubSummary
data shape (src/lib/types/club.ts), the ClubRail rendering and callback
wiring (src/lib/components/layout/ClubRail.svelte) and the owning Shell
state holder (src/routes/app/+layout.svelte).
-/

namespace Ripcord

/-- Data shape from src/lib/types/club.ts.  Optional fields are Option;
a JS value that is absent or null is modelled as none. -/
structure ClubSummary where
  id : String
  name : String
  iconUrl : Option String := none
  unreadCount : Option Nat := none
  mentionCount : Option Nat := none
  accentColor : Option String := none
deriving DecidableEq, Repr

/-- The whitespace class used by the regex in ClubRail.svelte line 34. -/
def isWS (c : Char) : Bool :=
  c == ' ' || c == '\t' || c == '\n' || c == '\r'

/-- Accumulator pass producing the whitespace-separated tokens of a string,
dropping empty tokens: the composed effect of trim, split on a whitespace
run, and the later filter(Boolean) in ClubRail.svelte lines 32-36. -/
def wsTokensAux (cur : List Char) : List Char → List (List Char)
  | [] => if cur.isEmpty then [] else [cur.reverse]
  | c :: rest =>
    if isWS c then
      if cur.isEmpty then wsTokensAux [] rest
      else cur.reverse :: wsTokensAux [] rest
    else wsTokensAux (c :: cur) rest

/-- Whitespace-separated tokens of a character list. -/
def wsTokens (cs : List Char) : List (List Char) :=
  wsTokensAux [] cs

/-- ClubRail.svelte lines 31-38: the fallback glyph text.  The pipeline
maps each token to its optional uppercased first character and keeps the
present ones (map plus filter(Boolean)); the result is the first entry,
or a question mark when there is none, followed by the second entry when
it exists. -/
def initials (name : String) : String :=
  let p : List Char :=
    ((wsTokens name.toList).map (fun t => t.head?.map Char.toUpper)).reduceOption
  (match p[0]? with
   | some c => String.mk [c]
   | none => "?") ++
  (match p[1]? with
   | some c => String.mk [c]
   | none => "")

/-- Spec-side tokenizer, written independently of the accumulator pass:
skip leading whitespace, then the first token is the maximal run of
non-whitespace characters and the rest is tokenized recursively. -/
def specTokens : List Char → List (List Char)
  | [] => []
  | c :: rest =>
    if isWS c then specTokens rest
    else ((c :: rest).takeWhile (fun d => !isWS d)) ::
      specTokens ((c :: rest).dropWhile (fun d => !isWS d))
termination_by cs => cs.length
decreasing_by
  · simp only [List.length_cons]
    omega
  · have hnot : (!isWS c) = true := by simp [*]
    rw [List.dropWhile_cons, if_pos hnot]
    have hle : (rest.dropWhile (fun d => !isWS d)).length ≤ rest.length :=
      (List.dropWhile_suffix (fun d => !isWS d)).sublist.length_le
    simp only [List.length_cons]
    omega

/-- Modelled from the specification wording of P3: the first letter of the
first whitespace-separated token, concatenated with the first letter of
the second token if one exists, uppercased; a question mark when the name
is empty or whitespace only. -/
def spec_initials (name : String) : String :=
  match specTokens name.toList with
  | [] => "?"
  | [t] => String.mk [(t.headD ' ').toUpper]
  | t :: u :: _ => String.mk [(t.headD ' ').toUpper, (u.headD ' ').toUpper]

/-- Per-club derived presentation, read off ClubRail.svelte lines 83-103:
which avatar image to show (the iconUrl when truthy), the fallback glyph
text, the fallback background style (accentColor when truthy), the unread
badge text (shown when unreadCount is truthy, capped at 99+), and the
mention indicator dot (shown when mentionCount is truthy). -/
structure ClubPresentation where
  icon : Option String
  fallbackText : String
  fallbackBg : Option String
  unreadBadge : Option String
  mentionDot : Bool
deriving DecidableEq, Repr

/-- ClubRail.svelte lines 83-103 for one ClubSummary.  JS truthiness:
an absent field, an empty string and a zero count are all falsy. -/
def clubPresentation (c : ClubSummary) : ClubPresentation :=
  { icon :=
      match c.iconUrl with
      | some u => if u.isEmpty then none else some u
      | none => none
    fallbackText := initials c.name
    fallbackBg :=
      match c.accentColor with
      | some a => if a.isEmpty then none else some a
      | none => none
    unreadBadge :=
      match c.unreadCount with
      | some n => if n == 0 then none else some (if n > 99 then "99+" else toString n)
      | none => none
    mentionDot :=
      match c.mentionCount with
      | some n => n != 0
      | none => false }

/-- One rendered entry of the rail: the Home button, a club button, the
create-club button, or the settings button. -/
inductive RailEntry where
  | home (selected : Bool)
  | club (id : String) (name : String) (pres : ClubPresentation) (selected : Bool)
  | createAction
  | settingsAction
deriving DecidableEq, Repr

/-- The aria-label attribute of each button: ClubRail.svelte lines 53, 76,
114 and 129. -/
def RailEntry.ariaLabel : RailEntry → String
  | .home _ => "Home"
  | .club _ n _ _ => n
  | .createAction => "Create club"
  | .settingsAction => "Settings"

/-- Whether the entry carries the selected ring (lines 56 and 80). -/
def RailEntry.isSelected : RailEntry → Bool
  | .home s => s
  | .club _ _ _ s => s
  | .createAction => false
  | .settingsAction => false

/-- Whether the entry is the Home entry. -/
def RailEntry.isHome : RailEntry → Bool
  | .home _ => true
  | _ => false

/-- The selection target an entry stands for: none of the action buttons
has one; Home stands for the null id; a club entry stands for its id. -/
def RailEntry.target? : RailEntry → Option (Option String)
  | .home _ => some none
  | .club i _ _ _ => some (some i)
  | .createAction => none
  | .settingsAction => none

/-- The club presentation carried by a club entry, none for other entries. -/
def entryPres? : RailEntry → Option ClubPresentation
  | .club _ _ p _ => some p
  | _ => none

/-- The rendered rail, top to bottom, from the ClubRail.svelte template
(lines 41-138): the Home button when showHome, then one button per club in
input order, then the create-club and settings buttons.  Home is selected
iff selectedClubId is null (line 56); a club is selected iff its id equals
selectedClubId (line 80). -/
def renderRail (clubs : List ClubSummary) (selectedClubId : Option String)
    (showHome : Bool) : List RailEntry :=
  (if showHome then [RailEntry.home (selectedClubId == none)] else []) ++
  clubs.map (fun c =>
    RailEntry.club c.id c.name (clubPresentation c) (selectedClubId == some c.id)) ++
  [RailEntry.createAction, RailEntry.settingsAction]

/-- An observable callback invocation of the rail. -/
inductive Callback where
  | onSelect (id : Option String)
  | onCreate
  | onSettings
deriving DecidableEq, Repr

/-- The click handlers of ClubRail.svelte lines 58, 77, 116 and 131: each
handler optionally-chains its callback prop, so activating an entry emits
exactly one invocation when the relevant prop was supplied and nothing at
all when it was absent.  The three Booleans record which of the select,
create and settings props are present. -/
def activateEntry (hasSelect hasCreate hasSettings : Bool) :
    RailEntry → List Callback
  | RailEntry.home _ => if hasSelect then [Callback.onSelect none] else []
  | RailEntry.club i _ _ _ => if hasSelect then [Callback.onSelect (some i)] else []
  | RailEntry.createAction => if hasCreate then [Callback.onCreate] else []
  | RailEntry.settingsAction => if hasSettings then [Callback.onSettings] else []

/-- The Shell state of src/routes/app/+layout.svelte: the club list it owns
and the current selection. -/
structure ShellState where
  clubs : List ClubSummary
  selectedClubId : Option String
deriving DecidableEq, Repr

/-- The hardcoded club list of +layout.svelte lines 7-14. -/
def shellClubs : List ClubSummary :=
  [ { id := "homebrew", name := "Homebrew Guild",
      accentColor := some "#fbff86", unreadCount := some 3 },
    { id := "synthwave", name := "Synthwave Cafe", accentColor := some "#905ea9" },
    { id := "devs", name := "Dev Collective",
      accentColor := some "#30e1b9", mentionCount := some 1 },
    { id := "pixels", name := "Pixel Artists", accentColor := some "#fbb954" },
    { id := "gamers", name := "Night Gamers", accentColor := some "#4d9be6" },
    { id := "plants", name := "Plant Parents", accentColor := some "#91db69" } ]

/-- +layout.svelte line 16: the initial selection is the first club id when
one exists, else null. -/
def initialSelectedClubId (clubs : List ClubSummary) : Option String :=
  (clubs.head?).map (fun c => c.id)

/-- +layout.svelte lines 18-20: handleSelect overwrites the selection with
the payload id, touching nothing else. -/
def handleSelect (st : ShellState) (payload : Option String) : ShellState :=
  { st with selectedClubId := payload }

/-- A sample club used to evaluate the theorems on concrete input. -/
def clubA : ClubSummary :=
  { id := "a", name := "Alpha", unreadCount := some 150, mentionCount := some 1 }

/-- A second sample club used to evaluate the theorems on concrete input. -/
def clubB : ClubSummary :=
  { id := "b", name := "Beta Crew", iconUrl := some "https://x/img.png" }

lemma wsTokensAux_eq_specTokens (cs : List Char) : ∀ cur : List Char,
    wsTokensAux cur cs =
      if cur.isEmpty then specTokens cs
      else (cur.reverse ++ cs.takeWhile (fun d => !isWS d)) ::
        specTokens (cs.dropWhile (fun d => !isWS d)) := by
  induction cs with
  | nil =>
    intro cur
    cases cur <;> simp [wsTokensAux, specTokens]
  | cons c rest ih =>
    intro cur
    by_cases hc : isWS c = true
    · cases cur with
      | nil =>
        simp [wsTokensAux, hc, ih, specTokens]
      | cons a as =>
        simp [wsTokensAux, hc, ih, specTokens, List.takeWhile, List.dropWhile]
    · cases cur with
      | nil =>
        simp [wsTokensAux, hc, ih, specTokens, List.takeWhile, List.dropWhile]
      | cons a as =>
        simp [wsTokensAux, hc, ih, specTokens, List.takeWhile, List.dropWhile]

lemma wsTokens_eq_specTokens (cs : List Char) : wsTokens cs = specTokens cs := by
  simpa [wsTokens] using wsTokensAux_eq_specTokens cs []

lemma specTokens_ne_nil (cs : List Char) : ∀ t ∈ specTokens cs, t ≠ [] := by
  induction cs using specTokens.induct with
  | case1 =>
    intro t ht
    simp [specTokens] at ht
  | case2 c rest hc ih =>
    intro t ht
    rw [specTokens, if_pos hc] at ht
    exact ih t ht
  | case3 c rest hc ih =>
    intro t ht
    rw [specTokens, if_neg hc] at ht
    rcases List.mem_cons.mp ht with h1 | h2
    · subst h1
      have hcf : isWS c = false := by
        revert hc
        cases isWS c <;> simp
      simp [List.takeWhile, hcf]
    · exact ih t h2

lemma initials_eq_spec_initials (name : String) :
    initials name = spec_initials name := by
  unfold initials spec_initials
  rw [wsTokens_eq_specTokens]
  rcases h : specTokens name.toList with _ | ⟨t, rest⟩
  · simp
  · have ht : t ≠ [] := specTokens_ne_nil _ t (h ▸ List.mem_cons_self t rest)
    obtain ⟨a, t', rfl⟩ := List.exists_cons_of_ne_nil ht
    rcases rest with _ | ⟨u, rest2⟩
    · simp [List.reduceOption]
    · have hu : u ≠ [] := specTokens_ne_nil _ u (by rw [h]; simp)
      obtain ⟨b, u', rfl⟩ := List.exists_cons_of_ne_nil hu
      simp [List.reduceOption]
      rfl

lemma filterMap_pres_map (sel : Option String) (clubs : List ClubSummary) :
    (clubs.map (fun c => RailEntry.club c.id c.name (clubPresentation c)
      (sel == some c.id))).filterMap entryPres? = clubs.map clubPresentation := by
  induction clubs with
  | nil => rfl
  | cons c cs ih => simp [entryPres?, ih]

lemma countP_selected_map (sel : Option String) (clubs : List ClubSummary) :
    (clubs.map (fun c => RailEntry.club c.id c.name (clubPresentation c)
      (sel == some c.id))).countP RailEntry.isSelected =
      clubs.countP (fun c => sel == some c.id) := by
  induction clubs with
  | nil => rfl
  | cons c cs ih => simp [RailEntry.isSelected, List.countP_cons, ih]

lemma countP_isHome_map (sel : Option String) (clubs : List ClubSummary) :
    (clubs.map (fun c => RailEntry.club c.id c.name (clubPresentation c)
      (sel == some c.id))).countP RailEntry.isHome = 0 := by
  induction clubs with
  | nil => rfl
  | cons c cs ih => simp [RailEntry.isHome, List.countP_cons, ih]

lemma renderRail_filterMap_pres (clubs : List ClubSummary)
    (sel : Option String) (sh : Bool) :
    (renderRail clubs sel sh).filterMap entryPres? = clubs.map clubPresentation := by
  have hacts : List.filterMap entryPres?
      [RailEntry.createAction, RailEntry.settingsAction] = [] := rfl
  cases sh with
  | false =>
    show List.filterMap entryPres? (([] ++ _) ++ _) = _
    rw [List.nil_append, List.filterMap_append, filterMap_pres_map, hacts,
      List.append_nil]
  | true =>
    show List.filterMap entryPres?
        (([RailEntry.home (sel == none)] ++ _) ++ _) = _
    rw [List.filterMap_append, List.filterMap_append]
    have hhome : List.filterMap entryPres? [RailEntry.home (sel == none)] = [] := rfl
    rw [hhome, List.nil_append, filterMap_pres_map, hacts, List.append_nil]

/-- Claim C1: the fallback glyph function initials agrees with the
spec-side description (first letter of the first whitespace-separated
token, plus the first letter of the second token when one exists,
uppercased, and a question mark for an empty or whitespace-only name),
and takes the four values the spec lists. -/
theorem claim_C1_initials :
    (∀ name : String, initials name = spec_initials name) ∧
    initials "Dev Collective" = "DC" ∧
    initials "Homebrew" = "H" ∧
    initials "   " = "?" ∧
    initials "midnight sun club" = "MS" :=
  ⟨initials_eq_spec_initials, by decide, by decide, by decide, by decide⟩

/-- Claim C2: for any club, the unread badge is present iff unreadCount is
present and nonzero, its text is 99+ exactly for counts over 99 and the
literal count otherwise; the mention dot is present iff mentionCount is
present and nonzero; the two indicators are independent of each other; and
the rendered rail presents each club through exactly this presentation. -/
theorem claim_C2_badges (c : ClubSummary) :
    ((∃ s, (clubPresentation c).unreadBadge = some s) ↔
      (∃ n, c.unreadCount = some n ∧ 0 < n)) ∧
    (∀ n, c.unreadCount = some n → 0 < n →
      (clubPresentation c).unreadBadge =
        some (if 99 < n then "99+" else toString n)) ∧
    ((clubPresentation c).mentionDot = true ↔
      (∃ n, c.mentionCount = some n ∧ 0 < n)) ∧
    (∀ m u, (clubPresentation { c with mentionCount := m }).unreadBadge =
        (clubPresentation c).unreadBadge ∧
      (clubPresentation { c with unreadCount := u }).mentionDot =
        (clubPresentation c).mentionDot) ∧
    (∀ clubs sel sh, c ∈ clubs →
      RailEntry.club c.id c.name (clubPresentation c) (sel == some c.id) ∈
        renderRail clubs sel sh) := by
  refine ⟨?_, ?_, ?_, ?_, ?_⟩
  · cases h : c.unreadCount with
    | none => simp [clubPresentation, h]
    | some n =>
      by_cases hn : n = 0 <;>
        simp [clubPresentation, h, hn, Nat.pos_of_ne_zero, Nat.pos_iff_ne_zero]
  · intro n hn hpos
    have hne : ¬ n = 0 := Nat.pos_iff_ne_zero.mp hpos
    simp [clubPresentation, hn, hne]
  · cases h : c.mentionCount with
    | none => simp [clubPresentation, h]
    | some n =>
      by_cases hn : n = 0 <;>
        simp [clubPresentation, h, hn, Nat.pos_iff_ne_zero]
  · intro m u
    constructor <;> simp [clubPresentation]
  · intro clubs sel sh hc
    simp only [renderRail, List.mem_append]
    left
    right
    exact List.mem_map.mpr ⟨c, hc, rfl⟩

/-- Evaluation of claim C2 on concrete input: a count of 150 renders the
capped badge text and the club entry occurs in the rendered rail. -/
theorem claim_C2_badges_witness :
    (clubPresentation clubA).unreadBadge = some "99+" ∧
    RailEntry.club "a" "Alpha" (clubPresentation clubA)
        ((none : Option String) == some "a") ∈
      renderRail [clubA] none true := by
  constructor
  · exact (claim_C2_badges clubA).2.1 150 rfl (by decide)
  · exact (claim_C2_badges clubA).2.2.2.2 [clubA] none true (by simp)

/-- Claim C3: when the club ids are unique, at most one rendered entry is
marked selected, and every rendered entry is marked selected exactly when
its selection target equals selectedClubId (Home targets the null id). -/
theorem claim_C3_selection (clubs : List ClubSummary) (sel : Option String)
    (sh : Bool) (h : (clubs.map (fun c => c.id)).Nodup) :
    ((renderRail clubs sel sh).countP RailEntry.isSelected ≤ 1) ∧
    (∀ e ∈ renderRail clubs sel sh,
      e.isSelected = true ↔ e.target? = some sel) := by
  constructor
  · have hacts :
        (List.countP RailEntry.isSelected
          [RailEntry.createAction, RailEntry.settingsAction]) = 0 := by decide
    rw [renderRail, List.countP_append, List.countP_append,
      countP_selected_map, hacts]
    cases sel with
    | none =>
      have hz : clubs.countP (fun c => (none : Option String) == some c.id) = 0 :=
        List.countP_eq_zero.mpr (fun a _ => by simp)
      rw [hz]
      cases sh <;> simp [RailEntry.isSelected]
    | some x =>
      have hle : clubs.countP (fun c => (some x : Option String) == some c.id) ≤ 1 := by
        have hcg : clubs.countP (fun c => (some x : Option String) == some c.id) =
            clubs.countP (fun c => c.id == x) := by
          apply List.countP_congr
          intro a _
          simp only [beq_iff_eq, Option.some.injEq]
          exact eq_comm
        have hcm : clubs.countP (fun c => c.id == x) =
            (clubs.map (fun c => c.id)).countP (fun i => i == x) := by
          rw [List.countP_map]
          rfl
        have hcnt := List.nodup_iff_count_le_one.mp h x
        rw [hcg, hcm]
        simpa [List.count] using hcnt
      have hh : (if sh then [RailEntry.home ((some x : Option String) == none)]
          else []).countP RailEntry.isSelected = 0 := by
        cases sh <;> simp [RailEntry.isSelected]
      rw [hh]
      omega
  · intro e he
    rw [renderRail] at he
    rcases List.mem_append.mp he with h12 | h3
    · rcases List.mem_append.mp h12 with h1 | h2
      · cases sh with
        | false => simp at h1
        | true =>
          simp at h1
          subst h1
          cases sel <;> simp [RailEntry.isSelected, RailEntry.target?]
      · obtain ⟨c, _, rfl⟩ := List.mem_map.mp h2
        cases sel with
        | none => simp [RailEntry.isSelected, RailEntry.target?]
        | some x =>
          simp only [RailEntry.isSelected, RailEntry.target?, beq_iff_eq,
            Option.some.injEq]
          exact eq_comm
    · rcases List.mem_cons.mp h3 with rfl | h3
      · simp [RailEntry.isSelected, RailEntry.target?]
      rcases List.mem_cons.mp h3 with rfl | h3
      · simp [RailEntry.isSelected, RailEntry.target?]
      · exact absurd h3 (List.not_mem_nil _)

/-- Evaluation of claim C3 on concrete input: the hardcoded Shell club
list has unique ids and yields at most one selected entry. -/
theorem claim_C3_selection_witness :
    (renderRail shellClubs (some "devs") true).countP RailEntry.isSelected ≤ 1 :=
  (claim_C3_selection shellClubs (some "devs") true (by decide)).1

/-- Claim C4, counterexample: the rendered rail never carries an entry
whose accessible label is the string the claim names for the create
action; the create button aria-label in the code reads Create club. -/
theorem claim_C4_counterexample :
    (renderRail [] none true).map RailEntry.ariaLabel =
      ["Home", "Create club", "Settings"] ∧
    "Create a club" ∉ (renderRail [] none true).map RailEntry.ariaLabel := by
  constructor
  · decide
  · decide

/-- Claim C4 as amended: every interactive entry exposes an accessible
label equal to its display name, which is Home for the Home entry, the
club name for each club entry, Create club for the create action and
Settings for the settings action. -/
theorem claim_C4_aria_labels (clubs : List ClubSummary) (sel : Option String)
    (sh : Bool) :
    (renderRail clubs sel sh).map RailEntry.ariaLabel =
      (if sh then ["Home"] else []) ++ clubs.map (fun c => c.name) ++
        ["Create club", "Settings"] := by
  cases sh <;>
    simp [renderRail, RailEntry.ariaLabel, Function.comp]

/-- Claim C5: with the select prop supplied, activating a club entry with
id X emits exactly the one invocation onSelect X, and activating the Home
entry emits exactly the one invocation onSelect null; no create or
settings invocation is emitted either way. -/
theorem claim_C5_callback_fidelity (i nm : String) (p : ClubPresentation)
    (s : Bool) (hc hs : Bool) :
    activateEntry true hc hs (RailEntry.club i nm p s) =
      [Callback.onSelect (some i)] ∧
    activateEntry true hc hs (RailEntry.home s) = [Callback.onSelect none] ∧
    (activateEntry true hc hs (RailEntry.club i nm p s)).count
      (Callback.onSelect (some i)) = 1 := by
  refine ⟨rfl, rfl, ?_⟩
  simp [activateEntry]

/-- Claim C6: handleSelect overwrites the selection with the payload id
unconditionally and leaves the club list unchanged; in particular an id
absent from the clubs is accepted and can leave the rendered rail with no
selected entry, as the concrete ghost id shows. -/
theorem claim_C6_handleSelect (st : ShellState) (p : Option String) :
    (handleSelect st p).selectedClubId = p ∧
    (handleSelect st p).clubs = st.clubs ∧
    (renderRail (handleSelect ⟨shellClubs, some "homebrew"⟩ (some "ghost")).clubs
      (handleSelect ⟨shellClubs, some "homebrew"⟩ (some "ghost")).selectedClubId
      true).countP RailEntry.isSelected = 0 :=
  ⟨rfl, rfl, by decide⟩

/-- Claim C7: the Shell initial selection is the first club id when the
collection is non-empty and null when it is empty; on the hardcoded list
it is the homebrew id. -/
theorem claim_C7_initial_selection :
    initialSelectedClubId [] = none ∧
    (∀ (c : ClubSummary) (rest : List ClubSummary),
      initialSelectedClubId (c :: rest) = some c.id) ∧
    initialSelectedClubId shellClubs = some "homebrew" :=
  ⟨rfl, fun _ _ => rfl, by decide⟩

/-- Claim C8: the presentations of the club entries of the rendered rail
are exactly the per-club presentation function mapped over the input
collection, for any selection and home toggle, so reordering the
collection only permutes the presentations. -/
theorem claim_C8_presentation_pure (clubs clubs' : List ClubSummary)
    (sel sel' : Option String) (sh sh' : Bool) :
    ((renderRail clubs sel sh).filterMap entryPres? =
      clubs.map clubPresentation) ∧
    (clubs.Perm clubs' →
      ((renderRail clubs sel sh).filterMap entryPres?).Perm
        ((renderRail clubs' sel' sh').filterMap entryPres?)) := by
  refine ⟨renderRail_filterMap_pres clubs sel sh, fun hp => ?_⟩
  rw [renderRail_filterMap_pres, renderRail_filterMap_pres]
  exact hp.map clubPresentation

/-- Evaluation of claim C8 on concrete input: swapping two clubs permutes
the rendered presentations even when selection and home toggle change. -/
theorem claim_C8_presentation_pure_witness :
    ((renderRail [clubA, clubB] none true).filterMap entryPres?).Perm
      ((renderRail [clubB, clubA] (some "x") false).filterMap entryPres?) :=
  (claim_C8_presentation_pure [clubA, clubB] [clubB, clubA]
    none (some "x") true false).2 (List.Perm.swap clubB clubA [])

/-- Claim C9: with showHome false, the rendered rail contains no Home
entry, for every club collection and every selection. -/
theorem claim_C9_home_toggle (clubs : List ClubSummary) (sel : Option String) :
    (renderRail clubs sel false).countP RailEntry.isHome = 0 := by
  have h2 : (List.countP RailEntry.isHome
      [RailEntry.createAction, RailEntry.settingsAction]) = 0 := by decide
  rw [renderRail, List.countP_append, List.countP_append,
    countP_isHome_map, h2]
  simp

/-- Claim C10: activation never emits more than one invocation; an absent
select, create or settings prop contributes no invocation of its kind; and
with all three props absent activation of any entry is a silent no-op. -/
theorem claim_C10_optional_callbacks (hs hc hst : Bool) (e : RailEntry) :
    (activateEntry hs hc hst e).length ≤ 1 ∧
    (hs = false → ∀ p, Callback.onSelect p ∉ activateEntry hs hc hst e) ∧
    (hc = false → Callback.onCreate ∉ activateEntry hs hc hst e) ∧
    (hst = false → Callback.onSettings ∉ activateEntry hs hc hst e) ∧
    activateEntry false false false e = [] := by
  cases e <;> cases hs <;> cases hc <;> cases hst <;>
    simp [activateEntry]

/-- Evaluation of claim C10 on concrete input: with the props absent, no
invocation is emitted on activating Home, create or settings. -/
theorem claim_C10_optional_callbacks_witness :
    (Callback.onSelect none ∉
      activateEntry false false false (RailEntry.home true)) ∧
    (Callback.onCreate ∉ activateEntry false false false RailEntry.createAction) ∧
    (Callback.onSettings ∉
      activateEntry false false false RailEntry.settingsAction) := by
  refine ⟨?_, ?_, ?_⟩
  · exact (claim_C10_optional_callbacks false false false
      (RailEntry.home true)).2.1 rfl none
  · exact (claim_C10_optional_callbacks false false false
      RailEntry.createAction).2.2.1 rfl
  · exact (claim_C10_optional_callbacks false false false
      RailEntry.settingsAction).2.2.2.1 rfl

end Ripcord
